import Mathlib

/-!
Verification development for `dom/media/webrtc/libwebrtcglue/WebrtcGonkH264VideoCodec.cpp`,
the Gonk (B2G) hardware H.264 WebRTC encoder/decoder glue.

Byte buffers are modelled as `List Nat` (each element one byte, `< 256` in practice;
only the low five bits — the NAL type — and equality with the start-code bytes matter
to the code under study).  Machine-integer overflow plays no role in any claim
(bitrates in kbps and millisecond intervals stay far below `2^32`), so `Nat`
arithmetic with explicit truncating division mirrors the C++ `uint32_t`/`int32_t`
expressions exactly where they occur.
-/

namespace WebrtcGonkH264

/-- The reserved 4-byte Annex-B start code `kNALStartCode = {0x00,0x00,0x00,0x01}`. -/
def kNALStartCode : List Nat := [0, 0, 0, 1]

def kNALTypeIDR : Nat := 5

def kNALTypeSPS : Nat := 7

def kNALTypePPS : Nat := 8

/-- The NAL type of a NAL-header byte: `b & 0x1f` (low five bits, i.e. `b % 32`). -/
def nalType (b : Nat) : Nat := b % 32

/-- `IsParamSets` (line 38): the buffer is a parameter-set buffer iff the NAL header
byte right after the leading 4-byte start code, masked with `0x1f`, is the SPS type.
Out-of-range reads are modelled with default byte `0`. -/
def IsParamSets (data : List Nat) : Bool :=
  nalType (data.getD kNALStartCode.length 0) == kNALTypeSPS

/-- Index of the first occurrence of the 4-byte start code in a byte list, if any.

Modelled from the spec: `android::getNextNALUnit` (stagefright `avc_utils`) is not part
of this repository; spec section 4.5 describes the demultiplexer as scanning left to
right for "a reserved 4-byte marker followed by a NAL unit". -/
def nextStartCode : List Nat → Option Nat
  | b0 :: b1 :: b2 :: b3 :: rest =>
    if b0 = 0 ∧ b1 = 0 ∧ b2 = 0 ∧ b3 = 1 then some 0
    else (nextStartCode (b1 :: b2 :: b3 :: rest)).map (fun i => i + 1)
  | _ => none

/-- One `getNextNALUnit` scan step per fuel unit: find the next start code, take the
bytes up to the following start code (or to the end of the buffer, matching
`startCodeFollows = true`) as one NAL unit, and continue after it.  Returns the
`(offset, size)` pair of every NAL unit found, offsets measured from `base`.

Each step consumes the 4 start-code bytes, so fuel `buf.length` (used by `scanNALs`)
is always sufficient; `scanNALsFuel_fuel_add` below proves the result is
fuel-independent from that point on. -/
def scanNALsFuel : Nat → List Nat → Nat → List (Nat × Nat)
  | 0, _, _ => []
  | fuel + 1, buf, base =>
    match nextStartCode buf with
    | none => []
    | some s =>
      match nextStartCode (buf.drop (s + 4)) with
      | none => [(base + s + 4, (buf.drop (s + 4)).length)]
      | some s2 =>
        (base + s + 4, s2) :: scanNALsFuel fuel ((buf.drop (s + 4)).drop s2) (base + s + 4 + s2)

/-- All NAL units of a buffer, as `(offset, size)` pairs measured from `base`.
This is the loop `while getNextNALUnit(...) == OK` of `ParamSetLength` (line 49)
and `SendEncodedDataToCallback` (line 178). -/
def scanNALs (buf : List Nat) (base : Nat) : List (Nat × Nat) :=
  scanNALsFuel buf.length buf base

/-- Inner loop of `ParamSetLength` (lines 49-56): walk the NAL units in order; at the
first one whose type is neither SPS nor PPS return the byte count up to (but not
including) its start code (`(nalStart - 4) - aData`, i.e. `offset - 4`); if every NAL
unit is SPS or PPS return the whole buffer length (line 57). -/
def paramSetScan (buf : List Nat) : List (Nat × Nat) → Nat
  | [] => buf.length
  | e :: rest =>
    if nalType (buf.getD e.1 0) ≠ kNALTypeSPS ∧ nalType (buf.getD e.1 0) ≠ kNALTypePPS then
      e.1 - 4
    else paramSetScan buf rest

/-- `ParamSetLength` (line 44): the length of the pre-pended SPS/PPS span of a buffer. -/
def ParamSetLength (buf : List Nat) : Nat := paramSetScan buf (scanNALs buf 0)

/-- Annex-B encoding of a list of NAL payloads: each payload preceded by the
4-byte start code.  This is the buffer shape the encoder device emits
("SPS/PPS or SPS/PPS/iframe", line 91). -/
def annexB : List (List Nat) → List Nat
  | [] => []
  | p :: rest => kNALStartCode ++ p ++ annexB rest

/-- The `(offset, size)` pairs the demultiplexer is expected to produce on
`annexB ps` when the scan starts at byte offset `base`. -/
def expectedNals : List (List Nat) → Nat → List (Nat × Nat)
  | [], _ => []
  | p :: rest, base => (base + 4, p.length) :: expectedNals rest (base + 4 + p.length)

/-- A NAL payload whose header byte carries a parameter-set type (SPS or PPS). -/
def IsParamNAL (p : List Nat) : Bool :=
  nalType (p.headD 0) == kNALTypeSPS || nalType (p.headD 0) == kNALTypePPS

/- ### Basic facts about the scanner -/

theorem nextStartCode_nil : nextStartCode [] = none := rfl

theorem scanNALsFuel_nil (fuel base : Nat) : scanNALsFuel fuel [] base = [] := by
  cases fuel <;> simp [scanNALsFuel, nextStartCode]

/-- A buffer that begins with the start code has its first start code at index 0. -/
theorem nextStartCode_startCode (xs : List Nat) :
    nextStartCode (kNALStartCode ++ xs) = some 0 := by
  simp [kNALStartCode, nextStartCode]

/-- A start-code-free byte list followed by a start code: the first start code of the
concatenation sits exactly at the end of the prefix.  The straddling windows cannot
match because the start code's fourth byte `1` never lines up. -/
theorem nextStartCode_append_startCode (p xs : List Nat) (h : nextStartCode p = none) :
    nextStartCode (p ++ kNALStartCode ++ xs) = some p.length := by
  induction p with
  | nil => simpa using nextStartCode_startCode xs
  | cons a p ih =>
    rcases p with - | ⟨b, p⟩
    · simp [kNALStartCode, nextStartCode]
    rcases p with - | ⟨c, p⟩
    · simp [kNALStartCode, nextStartCode]
    rcases p with - | ⟨d, p⟩
    · simp [kNALStartCode, nextStartCode]
    simp only [nextStartCode] at h
    by_cases hcond : a = 0 ∧ b = 0 ∧ c = 0 ∧ d = 1
    · simp [hcond] at h
    · rw [if_neg hcond] at h
      have h2 : nextStartCode (b :: c :: d :: p) = none := Option.map_eq_none'.mp h
      have htail := ih h2
      simp only [List.cons_append, List.length_cons] at htail ⊢
      simp only [nextStartCode, if_neg hcond]
      rw [htail]
      rfl

/-- A start code found at index `s` occupies bytes `s` to `s + 3`, so the list holds
at least `s + 4` bytes. -/
theorem nextStartCode_some_le (l : List Nat) :
    ∀ s, nextStartCode l = some s → s + 4 ≤ l.length := by
  induction l with
  | nil => intro s h; cases h
  | cons a t ih =>
    intro s h
    rcases t with - | ⟨b, t⟩
    · simp [nextStartCode] at h
    rcases t with - | ⟨c, t⟩
    · simp [nextStartCode] at h
    rcases t with - | ⟨d, t⟩
    · simp [nextStartCode] at h
    simp only [nextStartCode] at h
    by_cases hcond : a = 0 ∧ b = 0 ∧ c = 0 ∧ d = 1
    · rw [if_pos hcond] at h
      have hs : s = 0 := by cases h; rfl
      simp [hs]
    · rw [if_neg hcond] at h
      obtain ⟨s', hs', rfl⟩ := Option.map_eq_some'.mp h
      have := ih s' hs'
      simp only [List.length_cons] at this ⊢
      omega

/-- Any fuel at least the buffer length gives the scanner's final answer: the scan is
fuel-independent from `buf.length` on, so `scanNALs` never cuts a scan short. -/
theorem scanNALsFuel_fuel_add (fuel k : Nat) :
    ∀ (buf : List Nat) (base : Nat), buf.length ≤ fuel →
      scanNALsFuel (fuel + k) buf base = scanNALsFuel fuel buf base := by
  induction fuel with
  | zero =>
    intro buf base h
    have hb : buf = [] := List.length_eq_zero.mp (Nat.le_zero.mp h)
    subst hb
    simp [scanNALsFuel_nil]
  | succ f ih =>
    intro buf base h
    have hfk : f + 1 + k = (f + k) + 1 := by omega
    rw [hfk]
    cases hns : nextStartCode buf with
    | none => simp [scanNALsFuel, hns]
    | some s =>
      have hs4 : s + 4 ≤ buf.length := nextStartCode_some_le buf s hns
      cases hns2 : nextStartCode (buf.drop (s + 4)) with
      | none => simp [scanNALsFuel, hns, hns2]
      | some s2 =>
        simp only [scanNALsFuel, hns, hns2]
        have hlen : ((buf.drop (s + 4)).drop s2).length ≤ f := by
          simp only [List.length_drop]
          omega
        rw [ih _ _ hlen]

/-- `annexB` distributes over list concatenation. -/
theorem annexB_append (a b : List (List Nat)) : annexB (a ++ b) = annexB a ++ annexB b := by
  induction a with
  | nil => simp [annexB]
  | cons p rest ih => simp [annexB, ih]

theorem annexB_length_cons (p : List Nat) (rest : List (List Nat)) :
    (annexB (p :: rest)).length = 4 + p.length + (annexB rest).length := by
  simp [annexB, kNALStartCode]
  omega

/-- The demultiplexer run with fuel `(annexB ps).length` recovers exactly the
`(offset, size)` pair of every payload, provided no payload contains the
start-code pattern itself. -/
theorem scanNALsFuel_annexB (ps : List (List Nat)) :
    ∀ (base fuel : Nat), (∀ p ∈ ps, nextStartCode p = none) →
      (annexB ps).length ≤ fuel → scanNALsFuel fuel (annexB ps) base = expectedNals ps base := by
  induction ps with
  | nil => intro base fuel _ _; simp [annexB, expectedNals, scanNALsFuel_nil]
  | cons p rest ih =>
    intro base fuel hclean hfuel
    have hlen : (annexB (p :: rest)).length = 4 + p.length + (annexB rest).length :=
      annexB_length_cons p rest
    obtain ⟨f, rfl⟩ : ∃ f, fuel = f + 1 := by
      cases fuel with
      | zero => omega
      | succ f => exact ⟨f, rfl⟩
    have hstart : nextStartCode (annexB (p :: rest)) = some 0 := by
      show nextStartCode (kNALStartCode ++ p ++ annexB rest) = some 0
      rw [List.append_assoc]
      exact nextStartCode_startCode _
    have hdrop : (annexB (p :: rest)).drop 4 = p ++ annexB rest := by
      show (kNALStartCode ++ p ++ annexB rest).drop 4 = p ++ annexB rest
      rw [List.append_assoc]
      exact List.drop_left' (by simp [kNALStartCode])
    rw [scanNALsFuel]
    simp only [hstart, Nat.zero_add, Nat.add_zero, hdrop]
    cases rest with
    | nil =>
      have hp : nextStartCode (p ++ annexB []) = none := by
        simpa [annexB] using hclean p (by simp)
      simp only [hp]
      simp [expectedNals, annexB]
    | cons q rest2 =>
      have hp : nextStartCode (p ++ annexB (q :: rest2)) = some p.length := by
        show nextStartCode (p ++ (kNALStartCode ++ q ++ annexB rest2)) = some p.length
        rw [List.append_assoc kNALStartCode, ← List.append_assoc p]
        exact nextStartCode_append_startCode p _ (hclean p (by simp))
      simp only [hp]
      have hdrop2 : (p ++ annexB (q :: rest2)).drop p.length = annexB (q :: rest2) :=
        List.drop_left _ _
      rw [hdrop2]
      have hrec := ih (base + 4 + p.length) f
        (fun r hr => hclean r (by simp [hr]))
        (by omega)
      rw [hrec]
      simp [expectedNals]

/-- The demultiplexer (`getNextNALUnit` loop) on a well-formed Annex-B buffer. -/
theorem scanNALs_annexB (ps : List (List Nat)) (base : Nat)
    (hclean : ∀ p ∈ ps, nextStartCode p = none) :
    scanNALs (annexB ps) base = expectedNals ps base :=
  scanNALsFuel_annexB ps base (annexB ps).length hclean le_rfl

theorem expectedNals_length (ps : List (List Nat)) :
    ∀ base, (expectedNals ps base).length = ps.length := by
  induction ps with
  | nil => intro base; rfl
  | cons p rest ih => intro base; simp [expectedNals, ih]

/-- Every offset the demultiplexer reports lies at least 4 bytes past the scan origin. -/
theorem expectedNals_offset_lb (ps : List (List Nat)) :
    ∀ base e, e ∈ expectedNals ps base → base + 4 ≤ e.1 := by
  induction ps with
  | nil => intro base e he; simp [expectedNals] at he
  | cons p rest ih =>
    intro base e he
    rcases (by simpa [expectedNals] using he : e = (base + 4, p.length) ∨
        e ∈ expectedNals rest (base + 4 + p.length)) with h | h
    · simp [h]
    · have := ih (base + 4 + p.length) e h
      omega

/-- The reported NAL spans are strictly ordered and disjoint: each span ends strictly
before the next one starts (there is a 4-byte start code in between). -/
theorem expectedNals_pairwise (ps : List (List Nat)) :
    ∀ base, List.Pairwise (fun a b : Nat × Nat => a.1 + a.2 < b.1) (expectedNals ps base) := by
  induction ps with
  | nil => intro base; simp [expectedNals]
  | cons p rest ih =>
    intro base
    refine List.Pairwise.cons ?_ (ih (base + 4 + p.length))
    intro e he
    have := expectedNals_offset_lb rest (base + 4 + p.length) e he
    simp
    omega

/-- Coverage: extracting each reported `(offset, size)` span from the buffer returns
exactly the corresponding NAL payload. -/
theorem expectedNals_coverage (ps : List (List Nat)) :
    ∀ pre : List Nat,
      (expectedNals ps pre.length).map
          (fun e => ((pre ++ annexB ps).drop e.1).take e.2) = ps := by
  induction ps with
  | nil => intro pre; simp [expectedNals]
  | cons p rest ih =>
    intro pre
    simp only [expectedNals, List.map_cons, List.cons.injEq]
    refine ⟨?_, ?_⟩
    · show List.take p.length (List.drop (pre.length + 4) (pre ++ annexB (p :: rest))) = p
      have h1 : pre ++ annexB (p :: rest) = (pre ++ kNALStartCode) ++ (p ++ annexB rest) := by
        simp [annexB]
      rw [h1, List.drop_left' (by simp [kNALStartCode]), List.take_left]
    · have hpre : (pre ++ kNALStartCode ++ p).length = pre.length + 4 + p.length := by
        simp [kNALStartCode]
        omega
      have h2 : (pre ++ kNALStartCode ++ p) ++ annexB rest = pre ++ annexB (p :: rest) := by
        simp [annexB]
      have h3 := ih (pre ++ kNALStartCode ++ p)
      rw [hpre, h2] at h3
      exact h3

/-- The header byte of payload `i` read out of the assembled buffer: the byte at the
reported offset of the first NAL unit is the first payload's head byte. -/
theorem getD_annexB_head (pre p : List Nat) (rest : List (List Nat)) (hp : p ≠ []) :
    (pre ++ annexB (p :: rest)).getD (pre.length + 4) 0 = p.headD 0 := by
  have h1 : pre ++ annexB (p :: rest) = (pre ++ kNALStartCode) ++ (p ++ annexB rest) := by
    simp [annexB]
  have h2 : (pre ++ kNALStartCode).length = pre.length + 4 := by simp [kNALStartCode]
  rw [h1, List.getD_append_right _ _ _ _ (by omega), h2]
  simp only [Nat.sub_self]
  cases p with
  | nil => exact absurd rfl hp
  | cons b t => rfl

/-- `paramSetScan` walked over the expected NAL table of a well-formed buffer stops
exactly at the end of the leading run of SPS/PPS payloads. -/
theorem paramSetScan_expected (ps : List (List Nat)) :
    ∀ pre : List Nat, (∀ p ∈ ps, p ≠ []) →
      paramSetScan (pre ++ annexB ps) (expectedNals ps pre.length)
        = pre.length + (annexB (ps.takeWhile IsParamNAL)).length := by
  induction ps with
  | nil => intro pre _; simp [paramSetScan, expectedNals, annexB]
  | cons p rest ih =>
    intro pre hne
    have hhead : (pre ++ annexB (p :: rest)).getD (pre.length + 4) 0 = p.headD 0 :=
      getD_annexB_head pre p rest (hne p (by simp))
    simp only [expectedNals, paramSetScan, hhead]
    by_cases hP : IsParamNAL p = true
    · have hcond : ¬ (nalType (p.headD 0) ≠ kNALTypeSPS ∧ nalType (p.headD 0) ≠ kNALTypePPS) := by
        simp only [IsParamNAL, Bool.or_eq_true, beq_iff_eq] at hP
        tauto
      rw [if_neg hcond]
      have hpre2 : (pre ++ kNALStartCode ++ p).length = pre.length + 4 + p.length := by
        simp [kNALStartCode]; omega
      have h2 : (pre ++ kNALStartCode ++ p) ++ annexB rest = pre ++ annexB (p :: rest) := by
        simp [annexB]
      have h3 := ih (pre ++ kNALStartCode ++ p) (fun r hr => hne r (by simp [hr]))
      rw [hpre2, h2] at h3
      rw [h3]
      have htw : (p :: rest).takeWhile IsParamNAL = p :: rest.takeWhile IsParamNAL := by
        simp [List.takeWhile_cons, hP]
      rw [htw, annexB_length_cons]
      omega
    · have hcond : nalType (p.headD 0) ≠ kNALTypeSPS ∧ nalType (p.headD 0) ≠ kNALTypePPS := by
        simp only [IsParamNAL, Bool.or_eq_true, beq_iff_eq] at hP
        tauto
      rw [if_pos hcond]
      have htw : (p :: rest).takeWhile IsParamNAL = [] := by
        simp [List.takeWhile_cons, hP]
      rw [htw]
      simp [annexB]

/-- `ParamSetLength` on a well-formed Annex-B buffer: the byte length of the Annex-B
encoding of the leading run of SPS/PPS payloads (the whole buffer when every payload
is SPS or PPS). -/
theorem ParamSetLength_annexB (ps : List (List Nat))
    (hclean : ∀ p ∈ ps, p ≠ [] ∧ nextStartCode p = none) :
    ParamSetLength (annexB ps) = (annexB (ps.takeWhile IsParamNAL)).length := by
  have hscan : scanNALs (annexB ps) 0 = expectedNals ps 0 :=
    scanNALs_annexB ps 0 (fun p hp => (hclean p hp).2)
  have h := paramSetScan_expected ps [] (fun p hp => (hclean p hp).1)
  simpa [ParamSetLength, hscan] using h

/-- The Annex-B encoding of the leading SPS/PPS run is an initial segment of the
whole buffer, so taking `ParamSetLength` bytes returns exactly that run. -/
theorem take_ParamSetLength_annexB (ps : List (List Nat))
    (hclean : ∀ p ∈ ps, p ≠ [] ∧ nextStartCode p = none) :
    (annexB ps).take (ParamSetLength (annexB ps)) = annexB (ps.takeWhile IsParamNAL) := by
  rw [ParamSetLength_annexB ps hclean]
  have hsplit : annexB ps
      = annexB (ps.takeWhile IsParamNAL) ++ annexB (ps.dropWhile IsParamNAL) := by
    rw [← annexB_append, List.takeWhile_append_dropWhile]
  rw [hsplit, List.take_left]

/- ### Encoder output drain (`EncOutputDrain`, lines 60-210) -/

/-- `EncodedFrame` metadata registered per submitted picture (lines 430-436);
keyed by `mTimestampUs` in the input frame registry. -/
structure EncodedFrame where
  mWidth : Nat
  mHeight : Nat
  mTimestamp : Nat
  mTimestampUs : Nat
  mRenderTimeMs : Nat
deriving DecidableEq

/-- The value-initialized `EncodedFrame` used when no registry entry matches. -/
def defaultEncodedFrame : EncodedFrame := ⟨0, 0, 0, 0, 0⟩

/-- The fields of `webrtc::EncodedImage` that this code reads or writes
(lines 105-119): buffer, frame type (key/delta), and the metadata copied from the
matched input frame. -/
structure EncodedImageM where
  buffer : List Nat
  frameTypeKey : Bool
  encodedWidth : Nat
  encodedHeight : Nat
  timeStamp : Nat
  captureTimeMs : Nat
deriving DecidableEq

/-- Lines 105-119: build the `EncodedImage` for a drained buffer from the keyframe
classification and the matched (or default) input-frame metadata. -/
def mkEncodedImage (buf : List Nat) (key : Bool) (f : EncodedFrame) : EncodedImageM :=
  { buffer := buf, frameTypeKey := key, encodedWidth := f.mWidth,
    encodedHeight := f.mHeight, timeStamp := f.mTimestamp, captureTimeMs := f.mRenderTimeMs }

/-- One callback invocation (`OnEncodedImage`, line 202): the delivered image and its
fragmentation descriptor, one `(offset, size)` pair per NAL unit. -/
structure Delivery where
  image : EncodedImageM
  fragmentation : List (Nat × Nat)
deriving DecidableEq

/-- `EncOutputDrain::SendEncodedDataToCallback` (lines 151-204), with the single
recursive call (which has `aPrependParamSets = false`) unrolled: when asked to
prepend, first deliver the cached parameter sets (same metadata, parameter-set bytes)
as a separate invocation; then break the input buffer into NAL units and deliver it;
a buffer in which no NAL unit is found is not delivered (`num_nals > 0`, line 187). -/
def SendEncodedDataToCallback (paramSets : List Nat) (img : EncodedImageM)
    (aPrependParamSets : Bool) : List Delivery :=
  (if aPrependParamSets then
    (if 0 < (scanNALs paramSets 0).length then
      [⟨{ img with buffer := paramSets }, scanNALs paramSets 0⟩]
    else [])
  else [])
  ++ (if 0 < (scanNALs img.buffer 0).length then
    [⟨img, scanNALs img.buffer 0⟩]
  else [])

/-- The drain task's persistent state (lines 66, 206-209): the
"previous output was a parameter-set-only buffer" flag and the cached SPS/PPS blob. -/
structure EncDrainState where
  mIsPrevFrameParamSets : Bool
  mParamSets : List Nat
deriving DecidableEq

/-- One iteration of `EncOutputDrain::DrainOutput` (lines 88-144) for a poll that
returned a non-empty buffer, with the callback registered.  `flagSync` is the
device-reported `BUFFER_FLAG_SYNCFRAME` bit; `matched` is the result of popping the
input-frame registry by the device timestamp (the registry itself lives in
`WebrtcGonkVideoCodec.h`, outside the translated file; per spec section 4.3 a pop
returns the metadata or absent, and the drain code uses the returned value
unconditionally, so an absent pop yields the value-initialized frame).
Returns the callback invocations of this iteration and the new drain state. -/
def DrainOutput (st : EncDrainState) (output : List Nat) (flagSync : Bool)
    (matched : Option EncodedFrame) : List Delivery × EncDrainState :=
  let isParamSets := IsParamSets output
  let isIFrame := flagSync
  let input_frame := matched.getD defaultEncodedFrame
  let encoded := mkEncodedImage output (isParamSets || isIFrame) input_frame
  let deliveries := SendEncodedDataToCallback st.mParamSets encoded
    (isIFrame && !st.mIsPrevFrameParamSets && !isParamSets)
  let newPrev := isParamSets && !isIFrame
  let newParams := if isParamSets then output.take (ParamSetLength output) else st.mParamSets
  (deliveries, ⟨newPrev, newParams⟩)

/-- The input frame registry (spec sections 3 and 4.3).

Modelled from the spec: the registry class (`EncodedFrameList` in
`WebrtcGonkVideoCodec.h`) is not under the translated sources; per the spec,
`PopByTimestamp(timestamp) -> metadata | absent` removes and returns the entry
with the given presentation timestamp, and absence is not an error. -/
def PopByTimestamp (reg : List EncodedFrame) (t : Nat) :
    Option EncodedFrame × List EncodedFrame :=
  match reg.find? (fun f => f.mTimestampUs == t) with
  | some f => (some f, reg.eraseP (fun f => f.mTimestampUs == t))
  | none => (none, reg)

/- ### Bitrate-drift keyframe scheduler (`Encode`, lines 343-387, the
`OMX_IDR_NEEDED_FOR_BITRATE` build) -/

/-- The scheduler state: `mLastIDRTime` (milliseconds on an absolute clock) and
`mBitRateAtLastIDR` (kbps). -/
structure IdrState where
  mLastIDRTime : Nat
  mBitRateAtLastIDR : Nat
deriving DecidableEq

/-- The nine bitrate-drift trigger conditions as the spec lists them, computed with
the truncating integer division the source uses (`(B0 * 8) / 10` and so on).
`B` is the current bitrate in kbps, `B0` the bitrate at the last forced keyframe,
`T` the milliseconds since the last forced keyframe. -/
def forceConditions (B B0 T : Nat) : Bool :=
  (decide (T > 3000)) ||
  (decide (B < B0 * 8 / 10)) ||
  (decide (T < 300) && decide (B < B0 * 9 / 10)) ||
  (decide (T < 1000) && decide (B < B0 * 97 / 100)) ||
  (decide (T ≥ 1000) && decide (B < B0)) ||
  (decide (B > B0 * 15 / 10)) ||
  (decide (T < 500) && decide (B > B0 * 13 / 10)) ||
  (decide (T < 1000) && decide (B > B0 * 11 / 10)) ||
  (decide (T ≥ 1000) && decide (B > B0))

/-- The keyframe-request logic of `WebrtcGonkH264VideoEncoder::Encode`
(lines 343-387), direct translation of the `OMX_IDR_NEEDED_FOR_BITRATE` variant:
an explicit caller keyframe request always triggers `RequestIDRFrame`; otherwise the
bitrate-drift check runs **only when** `mBitRateKbps != mBitRateAtLastIDR`; on any
trigger the state is reset to `(now, B)`.  Returns whether `RequestIDRFrame` was
issued, and the new scheduler state. -/
def encodeKeyframeDecision (explicitKeyRequest : Bool) (B now : Nat) (st : IdrState) :
    Bool × IdrState :=
  if explicitKeyRequest then (true, ⟨now, B⟩)
  else if B ≠ st.mBitRateAtLastIDR then
    let timeSinceLastIDR := now - st.mLastIDRTime
    if timeSinceLastIDR > 3000 ∨
        B < st.mBitRateAtLastIDR * 8 / 10 ∨
        (timeSinceLastIDR < 300 ∧ B < st.mBitRateAtLastIDR * 9 / 10) ∨
        (timeSinceLastIDR < 1000 ∧ B < st.mBitRateAtLastIDR * 97 / 100) ∨
        (timeSinceLastIDR ≥ 1000 ∧ B < st.mBitRateAtLastIDR) ∨
        B > st.mBitRateAtLastIDR * 15 / 10 ∨
        (timeSinceLastIDR < 500 ∧ B > st.mBitRateAtLastIDR * 13 / 10) ∨
        (timeSinceLastIDR < 1000 ∧ B > st.mBitRateAtLastIDR * 11 / 10) ∨
        (timeSinceLastIDR ≥ 1000 ∧ B > st.mBitRateAtLastIDR) then
      (true, ⟨now, B⟩)
    else (false, st)
  else (false, st)

/- ### `WebrtcGonkH264VideoEncoder::SetRates` (lines 489-541) -/

/-- Distinct webrtc status codes (`video_error_codes.h`, outside this repository). -/
def WEBRTC_VIDEO_CODEC_OK : Int := 0

def WEBRTC_VIDEO_CODEC_ERROR : Int := -1

/-- `WEBRTC_VIDEO_CODEC_UNINITIALIZED` in the webrtc headers. -/
def WEBRTC_VIDEO_CODEC_UNINIT : Int := -7

/-- The frame-rate ladder of `SetRates` (lines 512-521), written as one function:
`>= 15 -> 30`, `>= 10 -> 20`, `>= 8 -> 15`, otherwise `10`. -/
def quantizeFrameRate (a : Nat) : Nat :=
  if a ≥ 15 then 30 else if a ≥ 10 then 20 else if a ≥ 8 then 15 else 10

/-- The ladder mapping the spec describes: "the nearest rate at or above the
requested value" among 10/15/20/30.  Follows the spec's words, for comparison with
the translated code. -/
def specNearestAtOrAbove (a : Nat) : Nat :=
  if a ≤ 10 then 10 else if a ≤ 15 then 15 else if a ≤ 20 then 20 else 30

/-- The frame-rate portion of `SetRates` (lines 510-528), direct translation:
when the requested rate is above the configured one or below half of it, requantize
(with the safety clamp of line 522 raising the result to the requested rate), and
flag an OMX reconfiguration when the configured rate actually changed.
Returns the new `mFrameRate` and whether `mOMXReconfigure` was set. -/
def setRatesFrameRate (aFrameRate mFrameRate : Nat) : Nat × Bool :=
  if aFrameRate > mFrameRate ∨ aFrameRate < mFrameRate / 2 then
    let old_rate := mFrameRate
    let m1 := if aFrameRate ≥ 15 then 30
      else if aFrameRate ≥ 10 then 20
      else if aFrameRate ≥ 8 then 15
      else 10
    let m2 := if m1 < aFrameRate then aFrameRate else m1
    (m2, decide (old_rate ≠ m2))
  else (mFrameRate, false)

/-- The encoder fields `SetRates` touches. -/
structure EncoderRatesState where
  omxPresent : Bool
  mFrameRate : Nat
  mBitRateKbps : Nat
  mOMXReconfigure : Bool
deriving DecidableEq

/-- `WebrtcGonkH264VideoEncoder::SetRates` (lines 489-541): uninitialized encoder
rejected; frame rate requantized per `setRatesFrameRate`; bitrate stored and pushed
to the device.  `setBitrateOk` is whether the device's `SetBitrate` succeeded
(`OMXVideoEncoder::SetBitrate` lives outside the translated file).  Line 540 returns
`WEBRTC_VIDEO_CODEC_OK` when `NS_FAILED(rv)` and `WEBRTC_VIDEO_CODEC_ERROR` otherwise. -/
def SetRates (aBitRateKbps aFrameRate : Nat) (setBitrateOk : Bool)
    (st : EncoderRatesState) : Int × EncoderRatesState :=
  if st.omxPresent = false then (WEBRTC_VIDEO_CODEC_UNINIT, st)
  else
    let fr := setRatesFrameRate aFrameRate st.mFrameRate
    let st1 := { st with
      mFrameRate := fr.1
      mOMXReconfigure := st.mOMXReconfigure || fr.2
      mBitRateKbps := aBitRateKbps }
    (if setBitrateOk = false then WEBRTC_VIDEO_CODEC_OK else WEBRTC_VIDEO_CODEC_ERROR, st1)

/- ### Codec reservation and release (lines 451-473, 616-628) -/

/-- The exclusive hardware-codec reservation.

Modelled from the spec: `android::OMXCodecReservation` (`OMXCodecWrapper.h`) is not
under the translated sources; per spec section 4.1 its `Release` is idempotent and
always safe, releasing the underlying resource at most once. -/
structure ReservationHandle where
  held : Bool
deriving DecidableEq

/-- Release the reservation; returns the new handle and how many times the
underlying hardware resource was actually released (0 or 1). -/
def releaseOMXCodec (r : ReservationHandle) : ReservationHandle × Nat :=
  if r.held then (⟨false⟩, 1) else (⟨false⟩, 0)

/-- The encoder fields `Release` touches (lines 451-467). -/
structure EncoderState where
  outputDrainRunning : Bool
  mOMXConfigured : Bool
  omxPresent : Bool
  reservation : ReservationHandle
deriving DecidableEq

/-- `WebrtcGonkH264VideoEncoder::Release` (lines 451-467): stop the drain task, clear
the configured flag, drop the OMX handle, and release the codec reservation only when
an OMX handle was still present (`hadOMX`, lines 459-463).  The destructor (line 472)
just calls this.  Returns the new state and the number of hardware releases. -/
def encoderRelease (e : EncoderState) : EncoderState × Nat :=
  let e1 : EncoderState := { e with outputDrainRunning := false, mOMXConfigured := false }
  let hadOMX := e1.omxPresent
  let e2 : EncoderState := { e1 with omxPresent := false }
  if hadOMX then
    let rn := releaseOMXCodec e2.reservation
    ({ e2 with reservation := rn.1 }, rn.2)
  else (e2, 0)

/-- The decoder fields `Release` and `Decode` touch (lines 568-628). -/
structure DecoderState where
  mCodecConfigSubmitted : Bool
  decoderPresent : Bool
  reservation : ReservationHandle
deriving DecidableEq

/-- `WebrtcGonkH264VideoDecoder::Release` (lines 616-623): drop the decoder (which
stops it), release the codec reservation unconditionally, and clear the
config-submitted flag.  The destructor (line 627) just calls this. -/
def decoderRelease (d : DecoderState) : DecoderState × Nat :=
  let d1 : DecoderState := { d with decoderPresent := false }
  let cnt := releaseOMXCodec d1.reservation
  ({ d1 with reservation := cnt.1, mCodecConfigSubmitted := false }, cnt.2)

/- ### `WebrtcGonkH264VideoDecoder::Decode` (lines 568-605) -/

/-- `WebrtcGonkH264VideoDecoder::Decode`, direct translation.  The two external
collaborators are passed as functions, modelled from the spec (both live outside
the translated file): `extract` is `android::MakeAVCCodecSpecificData` — derive a
codec-configuration record from the access unit, or fail — and `fill` is
`WebrtcGonkVideoDecoder::FillInput buffer isCodecConfig`, telling whether the device
accepted the submission.  Returns the status code, the new state, and the list of
device submissions attempted, in order, each tagged with its `isCodecConfig` flag. -/
def decoderDecode (extract : List Nat → Option (List Nat))
    (fill : List Nat → Bool → Bool) (input : List Nat) (st : DecoderState) :
    Int × DecoderState × List (List Nat × Bool) :=
  if input.length = 0 then (WEBRTC_VIDEO_CODEC_ERROR, st, [])
  else if st.mCodecConfigSubmitted = false then
    match extract input with
    | none => (WEBRTC_VIDEO_CODEC_ERROR, st, [])
    | some csd =>
      if fill csd true = false then (WEBRTC_VIDEO_CODEC_ERROR, st, [(csd, true)])
      else
        let st1 : DecoderState := { st with mCodecConfigSubmitted := true }
        if fill input false = false then
          (WEBRTC_VIDEO_CODEC_ERROR, st1, [(csd, true), (input, false)])
        else (WEBRTC_VIDEO_CODEC_OK, st1, [(csd, true), (input, false)])
  else
    if fill input false = false then (WEBRTC_VIDEO_CODEC_ERROR, st, [(input, false)])
    else (WEBRTC_VIDEO_CODEC_OK, st, [(input, false)])

/- ### Claims -/

/-- Helper: the boolean equation defining the previous-output flag after a drain
iteration (line 133). -/
theorem DrainOutput_prev_flag (st : EncDrainState) (b : List Nat) (s : Bool)
    (m : Option EncodedFrame) :
    (DrainOutput st b s m).2.mIsPrevFrameParamSets = (IsParamSets b && !s) := rfl

/-- C1: across two consecutive drained AccessUnits, the second being delivered with
flags `s2`/`IsParamSets b2`, the cached ParamSetBlob is delivered as a separate
callback invocation ahead of the AccessUnit's own NAL units exactly when the second
unit is a keyframe (`s2`), is not itself a parameter-set unit, and the first drained
unit was not parameter-set-only (`IsParamSets b1` and not `s1`); in particular
parameter-set units and delta units never receive a prepended blob.  The hypothesis
asks that the cached blob holds at least one NAL unit (the code asserts
`mParamSets.Length() > sizeof(kNALStartCode)` before prepending, line 156). -/
theorem c1_keyframe_prepension (st0 : EncDrainState) (b1 b2 : List Nat) (s1 s2 : Bool)
    (m1 m2 : Option EncodedFrame)
    (hcache : 0 < (scanNALs (DrainOutput st0 b1 s1 m1).2.mParamSets 0).length) :
    (DrainOutput (DrainOutput st0 b1 s1 m1).2 b2 s2 m2).1 =
      (if s2 = true ∧ IsParamSets b2 = false ∧ ¬(IsParamSets b1 = true ∧ s1 = false) then
        [⟨{ mkEncodedImage b2 (IsParamSets b2 || s2) (m2.getD defaultEncodedFrame) with
              buffer := (DrainOutput st0 b1 s1 m1).2.mParamSets },
          scanNALs (DrainOutput st0 b1 s1 m1).2.mParamSets 0⟩]
      else [])
      ++ (if 0 < (scanNALs b2 0).length then
        [⟨mkEncodedImage b2 (IsParamSets b2 || s2) (m2.getD defaultEncodedFrame),
          scanNALs b2 0⟩]
      else []) := by
  have hprev := DrainOutput_prev_flag st0 b1 s1 m1
  cases hb2 : IsParamSets b2 <;> cases s2 <;> cases hb1 : IsParamSets b1 <;> cases s1 <;>
    simp_all [DrainOutput, SendEncodedDataToCallback, mkEncodedImage]

/-- C1 witness: a parameter-set-only unit followed by a keyframe is not prefixed
(duplicate suppression), while a keyframe drained when the previous unit was a delta
frame is prefixed with the cached blob, delivered first. -/
theorem c1_keyframe_prepension_witness :
    (0 < (scanNALs (DrainOutput ⟨false, []⟩ (annexB [[103, 1], [104, 2]]) false
        none).2.mParamSets 0).length
      ∧ (DrainOutput (DrainOutput ⟨false, []⟩ (annexB [[103, 1], [104, 2]]) false none).2
          (annexB [[101, 9]]) true none).1 =
        [⟨mkEncodedImage (annexB [[101, 9]]) true defaultEncodedFrame, [(4, 2)]⟩])
    ∧ (0 < (scanNALs (DrainOutput ⟨false, annexB [[103, 1], [104, 2]]⟩
        (annexB [[65, 3]]) false none).2.mParamSets 0).length
      ∧ (DrainOutput (DrainOutput ⟨false, annexB [[103, 1], [104, 2]]⟩
          (annexB [[65, 3]]) false none).2 (annexB [[101, 9]]) true none).1 =
        [⟨{ mkEncodedImage (annexB [[101, 9]]) true defaultEncodedFrame with
              buffer := annexB [[103, 1], [104, 2]] }, [(4, 2), (10, 2)]⟩,
         ⟨mkEncodedImage (annexB [[101, 9]]) true defaultEncodedFrame, [(4, 2)]⟩]) := by
  constructor
  · refine ⟨by decide, ?_⟩
    have h := c1_keyframe_prepension ⟨false, []⟩ (annexB [[103, 1], [104, 2]])
      (annexB [[101, 9]]) false true none none (by decide)
    rw [h]
    decide
  · refine ⟨by decide, ?_⟩
    have h := c1_keyframe_prepension ⟨false, annexB [[103, 1], [104, 2]]⟩ (annexB [[65, 3]])
      (annexB [[101, 9]]) false true none none (by decide)
    rw [h]
    decide

/-- C3 counterexample: a drained AccessUnit whose timestamp matches nothing in the
registry (here: the registry is empty, so the pop is absent) still produces a
callback delivery — the claim says none is emitted for that iteration.  The drain
code (lines 100-142) calls `SendEncodedDataToCallback` unconditionally after the pop. -/
theorem c3_counterexample :
    (PopByTimestamp [] 42).1 = none
    ∧ (DrainOutput ⟨false, []⟩ (annexB [[101, 9]]) true
        (PopByTimestamp [] 42).1).1 ≠ [] := by decide

/-- C3 amended: on an absent pop the AccessUnit is still classified and the
parameter-set cache updated exactly as with a matched frame, and the callback
delivery is still emitted — identical to the delivery that a matched
value-initialized (all-zero) frame would produce, i.e. only the copied metadata
degrades; the number of invocations never depends on the match. -/
theorem c3_unmatched_pop (st : EncDrainState) (buf : List Nat) (s : Bool)
    (f : EncodedFrame) :
    (DrainOutput st buf s none).2 = (DrainOutput st buf s (some f)).2
    ∧ (DrainOutput st buf s none).1 = (DrainOutput st buf s (some defaultEncodedFrame)).1
    ∧ (DrainOutput st buf s none).1.length = (DrainOutput st buf s (some f)).1.length := by
  refine ⟨rfl, rfl, ?_⟩
  simp only [DrainOutput, SendEncodedDataToCallback, mkEncodedImage]
  split_ifs <;> simp

/-- C4: on a well-formed Annex-B buffer holding `k` NAL payloads, the delivery path
hands the callback exactly one invocation whose fragmentation descriptor has exactly
`k` `(offset, size)` pairs with strictly ascending, non-overlapping offsets measured
from the buffer start, whose spans extract exactly the NAL payloads; and a buffer in
which no NAL unit is found is never passed to the callback. -/
theorem c4_fragmentation (ps : List (List Nat)) (prm buf2 : List Nat) (key k2 : Bool)
    (f f2 : EncodedFrame)
    (hclean : ∀ p ∈ ps, p ≠ [] ∧ nextStartCode p = none)
    (hne : ps ≠ [])
    (hzero : scanNALs buf2 0 = []) :
    SendEncodedDataToCallback prm (mkEncodedImage (annexB ps) key f) false
        = [⟨mkEncodedImage (annexB ps) key f, scanNALs (annexB ps) 0⟩]
    ∧ (scanNALs (annexB ps) 0).length = ps.length
    ∧ List.Pairwise (fun a b : Nat × Nat => a.1 < b.1) (scanNALs (annexB ps) 0)
    ∧ List.Pairwise (fun a b : Nat × Nat => a.1 + a.2 < b.1) (scanNALs (annexB ps) 0)
    ∧ (scanNALs (annexB ps) 0).map
        (fun e => ((annexB ps).drop e.1).take e.2) = ps
    ∧ SendEncodedDataToCallback prm (mkEncodedImage buf2 k2 f2) false = [] := by
  have hscan : scanNALs (annexB ps) 0 = expectedNals ps 0 :=
    scanNALs_annexB ps 0 (fun p hp => (hclean p hp).2)
  have hlen : (scanNALs (annexB ps) 0).length = ps.length := by
    rw [hscan, expectedNals_length]
  have hpos : 0 < (scanNALs (annexB ps) 0).length := by
    rw [hlen]
    exact List.length_pos.mpr hne
  refine ⟨?_, hlen, ?_, ?_, ?_, ?_⟩
  · simp only [SendEncodedDataToCallback, mkEncodedImage]
    simp [hpos]
  · rw [hscan]
    exact (expectedNals_pairwise ps 0).imp (fun h => by omega)
  · rw [hscan]
    exact expectedNals_pairwise ps 0
  · rw [hscan]
    have h := expectedNals_coverage ps []
    simpa using h
  · simp [SendEncodedDataToCallback, mkEncodedImage, hzero]

/-- C4 witness: an SPS/PPS/IDR buffer yields a three-entry descriptor with the
stated properties; a start-code-free buffer is never delivered. -/
theorem c4_fragmentation_witness :
    ((∀ p ∈ [[103, 1], [104, 2], [101, 9]], p ≠ [] ∧ nextStartCode p = none)
      ∧ scanNALs [7, 7, 7] 0 = [])
    ∧ (SendEncodedDataToCallback [] (mkEncodedImage
          (annexB [[103, 1], [104, 2], [101, 9]]) true defaultEncodedFrame) false
        = [⟨mkEncodedImage (annexB [[103, 1], [104, 2], [101, 9]]) true defaultEncodedFrame,
            scanNALs (annexB [[103, 1], [104, 2], [101, 9]]) 0⟩]
      ∧ (scanNALs (annexB [[103, 1], [104, 2], [101, 9]]) 0).length
          = [[103, 1], [104, 2], [101, 9]].length
      ∧ List.Pairwise (fun a b : Nat × Nat => a.1 < b.1)
          (scanNALs (annexB [[103, 1], [104, 2], [101, 9]]) 0)
      ∧ List.Pairwise (fun a b : Nat × Nat => a.1 + a.2 < b.1)
          (scanNALs (annexB [[103, 1], [104, 2], [101, 9]]) 0)
      ∧ (scanNALs (annexB [[103, 1], [104, 2], [101, 9]]) 0).map
          (fun e => ((annexB [[103, 1], [104, 2], [101, 9]]).drop e.1).take e.2)
          = [[103, 1], [104, 2], [101, 9]]
      ∧ SendEncodedDataToCallback [] (mkEncodedImage [7, 7, 7] false defaultEncodedFrame)
          false = []) :=
  ⟨⟨by decide, by decide⟩,
    c4_fragmentation [[103, 1], [104, 2], [101, 9]] [] [7, 7, 7] true false
      defaultEncodedFrame defaultEncodedFrame (by decide) (by decide) (by decide)⟩

/-- The boolean trigger list agrees with its propositional reading. -/
theorem forceConditions_iff (B B0 T : Nat) :
    forceConditions B B0 T = true ↔
      (T > 3000 ∨ B < B0 * 8 / 10 ∨ (T < 300 ∧ B < B0 * 9 / 10) ∨
       (T < 1000 ∧ B < B0 * 97 / 100) ∨ (T ≥ 1000 ∧ B < B0) ∨
       B > B0 * 15 / 10 ∨ (T < 500 ∧ B > B0 * 13 / 10) ∨
       (T < 1000 ∧ B > B0 * 11 / 10) ∨ (T ≥ 1000 ∧ B > B0)) := by
  simp [forceConditions]
  tauto

/-- C2 counterexample: with the drift policy compiled in, no explicit keyframe
request, `B0 = 1000` kbps, `B = 1000` kbps and `T = 4000` ms, the listed trigger
`T > 3000` holds, yet the code forces no keyframe and resets nothing: the whole
drift check is guarded by `mBitRateKbps != mBitRateAtLastIDR` (line 349), so equal
bitrates never reach the trigger list. -/
theorem c2_counterexample :
    encodeKeyframeDecision false 1000 4000 ⟨0, 1000⟩ = (false, ⟨0, 1000⟩)
    ∧ forceConditions 1000 1000 4000 = true := by decide

/-- C2 amended: when the drift policy is enabled, the submission carries no explicit
keyframe request, **and the current bitrate differs from the bitrate at the last
forced keyframe**, a keyframe is forced exactly when one of the listed conditions
holds (fractional thresholds computed with the source's truncating integer
division), and on any trigger `B0` is reset to `B` and the timer restarts; when the
bitrate has not changed, no keyframe is forced regardless of elapsed time. -/
theorem c2_keyframe_scheduler (B now t0 : Nat) (st : IdrState)
    (h : B ≠ st.mBitRateAtLastIDR) :
    ((encodeKeyframeDecision false B now st).1
        = forceConditions B st.mBitRateAtLastIDR (now - st.mLastIDRTime))
    ∧ (forceConditions B st.mBitRateAtLastIDR (now - st.mLastIDRTime) = true →
        (encodeKeyframeDecision false B now st).2 = ⟨now, B⟩)
    ∧ (forceConditions B st.mBitRateAtLastIDR (now - st.mLastIDRTime) = false →
        (encodeKeyframeDecision false B now st).2 = st)
    ∧ (encodeKeyframeDecision false B now ⟨t0, B⟩).1 = false := by
  have hiff := forceConditions_iff B st.mBitRateAtLastIDR (now - st.mLastIDRTime)
  by_cases hc : forceConditions B st.mBitRateAtLastIDR (now - st.mLastIDRTime) = true
  · have hp := hiff.mp hc
    refine ⟨?_, fun _ => ?_, fun hf => ?_, ?_⟩
    · simp [encodeKeyframeDecision, h, if_pos hp, hc]
    · simp [encodeKeyframeDecision, h, if_pos hp]
    · rw [hc] at hf
      cases hf
    · simp [encodeKeyframeDecision]
  · have hp : ¬ _ := fun hh => hc (hiff.mpr hh)
    have hcf : forceConditions B st.mBitRateAtLastIDR (now - st.mLastIDRTime) = false := by
      cases hb : forceConditions B st.mBitRateAtLastIDR (now - st.mLastIDRTime)
      · rfl
      · exact absurd hb hc
    refine ⟨?_, fun hf => ?_, fun _ => ?_, ?_⟩
    · simp [encodeKeyframeDecision, h, if_neg hp, hcf]
    · rw [hcf] at hf
      cases hf
    · simp [encodeKeyframeDecision, h, if_neg hp]
    · simp [encodeKeyframeDecision]

/-- C2 witness: the spec's own numeric scenarios with a changed bitrate:
`B0 = 1000`, `B = 790`, `T = 100` forces (`B < 800`) and resets the state;
`B = 990`, `T = 200` does not force; the trigger equivalence is exercised through
the amended theorem at both inputs. -/
theorem c2_keyframe_scheduler_witness :
    ((encodeKeyframeDecision false 790 100 ⟨0, 1000⟩).1 = forceConditions 790 1000 100
      ∧ (encodeKeyframeDecision false 790 100 ⟨0, 1000⟩).2 = ⟨100, 790⟩)
    ∧ ((encodeKeyframeDecision false 990 200 ⟨0, 1000⟩).1 = forceConditions 990 1000 200
      ∧ (encodeKeyframeDecision false 990 200 ⟨0, 1000⟩).2 = ⟨0, 1000⟩)
    ∧ (encodeKeyframeDecision false 1000 4000 ⟨0, 1000⟩).1 = false := by
  refine ⟨⟨?_, ?_⟩, ⟨?_, ?_⟩, ?_⟩
  · exact (c2_keyframe_scheduler 790 100 0 ⟨0, 1000⟩ (by decide)).1
  · exact (c2_keyframe_scheduler 790 100 0 ⟨0, 1000⟩ (by decide)).2.1 (by decide)
  · exact (c2_keyframe_scheduler 990 200 0 ⟨0, 1000⟩ (by decide)).1
  · exact (c2_keyframe_scheduler 990 200 0 ⟨0, 1000⟩ (by decide)).2.2.1 (by decide)
  · exact (c2_keyframe_scheduler 1000 4000 0 ⟨0, 999⟩ (by decide)).2.2.2

/-- C5: on a fresh decoder (`mCodecConfigSubmitted = false`) with non-empty input,
a successful configuration extraction leads to exactly two device submissions —
the synthesized configuration record, then the original access unit — and a failed
extraction to zero submissions and an error; once the flag is set, `Decode` no
longer consults the extractor, submits only the data, never clears the flag, and
only `Release` resets it. -/
theorem c5_decoder_sequencing (extract e2 : List Nat → Option (List Nat))
    (fill : List Nat → Bool → Bool) (input csd : List Nat) (st st2 : DecoderState)
    (hfresh : st.mCodecConfigSubmitted = false)
    (hne : input ≠ [])
    (hsub : st2.mCodecConfigSubmitted = true) :
    (extract input = some csd → fill csd true = true → fill input false = true →
      decoderDecode extract fill input st =
        (WEBRTC_VIDEO_CODEC_OK, { st with mCodecConfigSubmitted := true },
          [(csd, true), (input, false)]))
    ∧ (extract input = none →
      decoderDecode extract fill input st = (WEBRTC_VIDEO_CODEC_ERROR, st, []))
    ∧ decoderDecode extract fill input st2 = decoderDecode e2 fill input st2
    ∧ (decoderDecode extract fill input st2).2.2 = [(input, false)]
    ∧ (decoderDecode extract fill input st2).2.1.mCodecConfigSubmitted = true
    ∧ (decoderRelease st2).1.mCodecConfigSubmitted = false := by
  have hlen : ¬ input.length = 0 := fun hh => hne (List.length_eq_zero.mp hh)
  refine ⟨fun hx h1 h2 => ?_, fun hx => ?_, ?_, ?_, ?_, ?_⟩
  · simp [decoderDecode, hlen, hfresh, hx, h1, h2]
  · simp [decoderDecode, hlen, hfresh, hx]
  · simp [decoderDecode, hlen, hsub]
  · simp only [decoderDecode, if_neg hlen]
    rw [hsub]
    cases hf : fill input false <;> simp
  · simp only [decoderDecode, if_neg hlen]
    rw [hsub]
    cases hf : fill input false <;> simp [hsub]
  · simp [decoderRelease]

/-- C5 witness: concrete extractor and device acceptance; the success path makes
exactly the two tagged submissions; the failing extractor makes none and errors. -/
theorem c5_decoder_sequencing_witness :
    decoderDecode (fun _ => some [9, 9]) (fun _ _ => true) [1, 2] ⟨false, true, ⟨true⟩⟩
        = (WEBRTC_VIDEO_CODEC_OK, ⟨true, true, ⟨true⟩⟩, [([9, 9], true), ([1, 2], false)])
    ∧ decoderDecode (fun _ => none) (fun _ _ => true) [1, 2] ⟨false, true, ⟨true⟩⟩
        = (WEBRTC_VIDEO_CODEC_ERROR, ⟨false, true, ⟨true⟩⟩, [])
    ∧ (decoderRelease ⟨true, true, ⟨true⟩⟩).1.mCodecConfigSubmitted = false := by
  refine ⟨?_, ?_, ?_⟩
  · exact (c5_decoder_sequencing (fun _ => some [9, 9]) (fun _ => none) (fun _ _ => true)
      [1, 2] [9, 9] ⟨false, true, ⟨true⟩⟩ ⟨true, true, ⟨true⟩⟩ rfl (by decide) rfl).1
      rfl rfl rfl
  · exact (c5_decoder_sequencing (fun _ => none) (fun _ => none) (fun _ _ => true)
      [1, 2] [9, 9] ⟨false, true, ⟨true⟩⟩ ⟨true, true, ⟨true⟩⟩ rfl (by decide) rfl).2.1 rfl
  · exact (c5_decoder_sequencing (fun _ => some [9, 9]) (fun _ => none) (fun _ _ => true)
      [1, 2] [9, 9] ⟨false, true, ⟨true⟩⟩ ⟨true, true, ⟨true⟩⟩ rfl (by decide) rfl).2.2.2.2.2

/-- C6: whenever a drained AccessUnit is flagged `isParamSets`, the cached blob is
replaced wholesale by the Annex-B encoding of the leading run of SPS/PPS payloads —
the leading bytes up to but not including the start code of the first NAL unit whose
type is neither SPS nor PPS, or the entire buffer when every NAL unit is SPS or PPS. -/
theorem c6_paramset_cache (st : EncDrainState) (s : Bool) (m : Option EncodedFrame)
    (ps : List (List Nat))
    (hclean : ∀ p ∈ ps, p ≠ [] ∧ nextStartCode p = none)
    (hflag : IsParamSets (annexB ps) = true) :
    (DrainOutput st (annexB ps) s m).2.mParamSets = annexB (ps.takeWhile IsParamNAL) := by
  simp only [DrainOutput, hflag]
  simp [take_ParamSetLength_annexB ps hclean]

/-- C6 witness: an SPS/PPS/IDR buffer caches exactly its SPS/PPS prefix; an SPS/PPS
buffer caches the whole buffer. -/
theorem c6_paramset_cache_witness :
    ((DrainOutput ⟨false, []⟩ (annexB [[103, 1], [104, 2], [101, 9]]) true none).2.mParamSets
        = annexB ([[103, 1], [104, 2], [101, 9]].takeWhile IsParamNAL)
      ∧ annexB ([[103, 1], [104, 2], [101, 9]].takeWhile IsParamNAL)
        = annexB [[103, 1], [104, 2]])
    ∧ ((DrainOutput ⟨false, []⟩ (annexB [[103, 1], [104, 2]]) false none).2.mParamSets
        = annexB ([[103, 1], [104, 2]].takeWhile IsParamNAL)
      ∧ annexB ([[103, 1], [104, 2]].takeWhile IsParamNAL)
        = annexB [[103, 1], [104, 2]]) :=
  ⟨⟨c6_paramset_cache ⟨false, []⟩ true none [[103, 1], [104, 2], [101, 9]]
      (by decide) (by decide), by decide⟩,
   ⟨c6_paramset_cache ⟨false, []⟩ false none [[103, 1], [104, 2]]
      (by decide) (by decide), by decide⟩⟩

/-- C7 counterexample: a buffer whose first NAL unit is a PPS (type 8, a
parameter-set type) is **not** flagged `isParamSets` — `IsParamSets` (line 40) tests
only the SPS type (the code's stated assumption, line 37: "SPS is first paramset or
is not present"), so the claimed "iff parameter-set type (SPS or PPS)" fails. -/
theorem c7_counterexample :
    IsParamSets (annexB [[104, 30], [101, 9]]) = false
    ∧ nalType ((annexB [[104, 30], [101, 9]]).getD 4 0) = kNALTypePPS
    ∧ ¬(IsParamSets (annexB [[104, 30], [101, 9]]) = true ↔
        (nalType ((annexB [[104, 30], [101, 9]]).getD 4 0) = kNALTypeSPS ∨
         nalType ((annexB [[104, 30], [101, 9]]).getD 4 0) = kNALTypePPS)) := by decide

/-- C7 amended: a drained AccessUnit is flagged `isParamSets` iff the NAL type of its
first NAL unit after the leading start code is the **SPS** type; the keyframe flag
comes independently from the device, and a buffer carrying both flags simultaneously
is accepted without failure: it is delivered (as a keyframe, with no prepension) and
the previous-output-was-parameter-set-only flag is cleared. -/
theorem c7_classification (p : List Nat) (ps : List (List Nat)) (st : EncDrainState)
    (m : Option EncodedFrame)
    (hclean : ∀ q ∈ p :: ps, q ≠ [] ∧ nextStartCode q = none) :
    (IsParamSets (annexB (p :: ps)) = true ↔ nalType (p.headD 0) = kNALTypeSPS)
    ∧ (IsParamSets (annexB (p :: ps)) = true →
        (DrainOutput st (annexB (p :: ps)) true m).1 =
          [⟨mkEncodedImage (annexB (p :: ps)) true (m.getD defaultEncodedFrame),
            scanNALs (annexB (p :: ps)) 0⟩]
        ∧ (DrainOutput st (annexB (p :: ps)) true m).2.mIsPrevFrameParamSets = false) := by
  have hhead : (annexB (p :: ps)).getD 4 0 = p.headD 0 := by
    have h := getD_annexB_head [] p ps (hclean p (by simp)).1
    simpa using h
  have hpos : 0 < (scanNALs (annexB (p :: ps)) 0).length := by
    rw [scanNALs_annexB (p :: ps) 0 (fun q hq => (hclean q hq).2), expectedNals_length]
    simp
  constructor
  · rw [IsParamSets]
    have h4 : kNALStartCode.length = 4 := rfl
    rw [h4, hhead]
    simp
  · intro hflag
    constructor
    · simp only [DrainOutput, SendEncodedDataToCallback, mkEncodedImage, hflag]
      simp [hpos]
    · simp [DrainOutput_prev_flag, hflag]

/-- C7 amended witness: an SPS/PPS/IDR buffer (both flags set after a reconfiguration)
is classified as parameter sets, delivered once as a keyframe, and clears the flag. -/
theorem c7_classification_witness :
    (IsParamSets (annexB [[103, 1], [104, 2], [101, 9]]) = true ↔
      nalType (([103, 1] : List Nat).headD 0) = kNALTypeSPS)
    ∧ ((DrainOutput ⟨false, [0, 0, 0, 1, 103, 9]⟩ (annexB [[103, 1], [104, 2], [101, 9]])
        true none).1 =
      [⟨mkEncodedImage (annexB [[103, 1], [104, 2], [101, 9]]) true defaultEncodedFrame,
        scanNALs (annexB [[103, 1], [104, 2], [101, 9]]) 0⟩]
      ∧ (DrainOutput ⟨false, [0, 0, 0, 1, 103, 9]⟩ (annexB [[103, 1], [104, 2], [101, 9]])
        true none).2.mIsPrevFrameParamSets = false) :=
  ⟨(c7_classification [103, 1] [[104, 2], [101, 9]] ⟨false, [0, 0, 0, 1, 103, 9]⟩ none
      (by decide)).1,
   (c7_classification [103, 1] [[104, 2], [101, 9]] ⟨false, [0, 0, 0, 1, 103, 9]⟩ none
      (by decide)).2 (by decide)⟩

/-- C8 counterexample: with configured rate 10 fps, a request for 15 fps (which
triggers requantization, `15 > 10`) yields 30 fps, not the nearest ladder rate at or
above the request, which is 15: the code (lines 512-521) maps `>= 15` to 30,
`>= 10` to 20, `>= 8` to 15, else 10. -/
theorem c8_counterexample :
    (15 > 10 ∨ 15 < 10 / 2)
    ∧ (setRatesFrameRate 15 10).1 = 30
    ∧ specNearestAtOrAbove 15 = 15
    ∧ (setRatesFrameRate 15 10).1 ≠ specNearestAtOrAbove 15 := by decide

/-- C8 amended: `SetRates` requantizes only when the requested rate is above the
configured rate or below half of it (otherwise rate and reconfigure flag are
untouched); the requantized rate is the ladder value `>= 15 -> 30`, `>= 10 -> 20`,
`>= 8 -> 15`, else `10`, raised to the requested rate if that is larger; the
configured rate lands on the ladder unless the request exceeded 30; and the
reconfiguration flag is set exactly when the configured rate changed. -/
theorem c8_frame_rate_ladder (a m : Nat) :
    (¬(a > m ∨ a < m / 2) → setRatesFrameRate a m = (m, false))
    ∧ ((a > m ∨ a < m / 2) →
        (setRatesFrameRate a m).1 = max (quantizeFrameRate a) a
        ∧ (setRatesFrameRate a m).2 = decide (m ≠ (setRatesFrameRate a m).1))
    ∧ ((setRatesFrameRate a m).2 = true → (a > m ∨ a < m / 2))
    ∧ ((setRatesFrameRate a m).1 ∈ ([10, 15, 20, 30] : List Nat)
        ∨ (setRatesFrameRate a m).1 = m
        ∨ ((setRatesFrameRate a m).1 = a ∧ 30 < a)) := by
  by_cases htrig : a > m ∨ a < m / 2
  · refine ⟨fun hn => absurd htrig hn, fun _ => ⟨?_, ?_⟩, fun _ => htrig, ?_⟩
    · simp only [setRatesFrameRate, if_pos htrig, quantizeFrameRate]
      split_ifs <;> omega
    · simp only [setRatesFrameRate, if_pos htrig]
    · simp only [setRatesFrameRate, if_pos htrig, List.mem_cons]
      split_ifs <;> omega
  · refine ⟨fun _ => ?_, fun ht => absurd ht htrig, fun hr => ?_, ?_⟩
    · simp [setRatesFrameRate, htrig]
    · simp [setRatesFrameRate, htrig] at hr
    · simp [setRatesFrameRate, htrig]

/-- C8 witness: a request inside the half-to-configured band changes nothing; a
request of 15 fps at configured 10 fps requantizes to the code's ladder value. -/
theorem c8_frame_rate_ladder_witness :
    setRatesFrameRate 7 10 = (10, false)
    ∧ (setRatesFrameRate 15 10).1 = max (quantizeFrameRate 15) 15 :=
  ⟨(c8_frame_rate_ladder 7 10).1 (by decide),
   ((c8_frame_rate_ladder 15 10).2.1 (by decide)).1⟩

/-- C9: `Release` is idempotent and safe from partially-initialized states: a second
encoder or decoder `Release` (including the one the destructor performs) leaves the
state unchanged and performs zero further hardware releases, a first `Release` of a
fully-initialized instance releases the codec reservation exactly once, and an
encoder whose OMX handle is absent releases nothing. -/
theorem c9_release_idempotent (e e0 : EncoderState) (d : DecoderState)
    (he : e.omxPresent = true) (hr : e.reservation.held = true)
    (hd : d.reservation.held = true) (h0 : e0.omxPresent = false) :
    (encoderRelease (encoderRelease e).1).1 = (encoderRelease e).1
    ∧ (encoderRelease (encoderRelease e).1).2 = 0
    ∧ (encoderRelease e).2 = 1
    ∧ (encoderRelease e).2 + (encoderRelease (encoderRelease e).1).2 = 1
    ∧ (decoderRelease (decoderRelease d).1).1 = (decoderRelease d).1
    ∧ (decoderRelease (decoderRelease d).1).2 = 0
    ∧ (decoderRelease d).2 = 1
    ∧ (encoderRelease e0).2 = 0 := by
  simp [encoderRelease, decoderRelease, releaseOMXCodec, he, hr, hd, h0]

/-- C9 witness: concrete fully-initialized encoder and decoder states, and a
partially-initialized encoder that never reserved. -/
theorem c9_release_idempotent_witness :
    (encoderRelease (encoderRelease ⟨true, true, true, ⟨true⟩⟩).1).1
        = (encoderRelease ⟨true, true, true, ⟨true⟩⟩).1
    ∧ (encoderRelease ⟨true, true, true, ⟨true⟩⟩).2 = 1
    ∧ (decoderRelease ⟨true, true, ⟨true⟩⟩).2 = 1
    ∧ (encoderRelease ⟨false, false, false, ⟨false⟩⟩).2 = 0 := by
  have h := c9_release_idempotent ⟨true, true, true, ⟨true⟩⟩ ⟨false, false, false, ⟨false⟩⟩
    ⟨true, true, ⟨true⟩⟩ rfl rfl rfl rfl
  exact ⟨h.1, h.2.2.1, h.2.2.2.2.2.2.1, h.2.2.2.2.2.2.2⟩

/-- C10: after initialization (`mOMX` present), `SetRates` returns
`WEBRTC_VIDEO_CODEC_OK` exactly when the device's `SetBitrate` call fails and
`WEBRTC_VIDEO_CODEC_ERROR` exactly when it succeeds (line 540 — the
`NS_FAILED(rv) ? OK : ERROR` branch is inverted relative to every other return in
the file, and the model reproduces it faithfully). -/
theorem c10_setrates_return (a fr : Nat) (ok : Bool) (st : EncoderRatesState)
    (h : st.omxPresent = true) :
    ((SetRates a fr ok st).1 = WEBRTC_VIDEO_CODEC_OK ↔ ok = false)
    ∧ ((SetRates a fr ok st).1 = WEBRTC_VIDEO_CODEC_ERROR ↔ ok = true) := by
  cases ok <;>
    simp [SetRates, h, WEBRTC_VIDEO_CODEC_OK, WEBRTC_VIDEO_CODEC_ERROR]

/-- C10 witness: a succeeding device `SetBitrate` yields `WEBRTC_VIDEO_CODEC_ERROR`,
a failing one yields `WEBRTC_VIDEO_CODEC_OK`. -/
theorem c10_setrates_return_witness :
    ((SetRates 600 30 true ⟨true, 30, 500, false⟩).1 = WEBRTC_VIDEO_CODEC_ERROR ↔
      (true : Bool) = true)
    ∧ ((SetRates 600 30 false ⟨true, 30, 500, false⟩).1 = WEBRTC_VIDEO_CODEC_OK ↔
      (false : Bool) = false) :=
  ⟨(c10_setrates_return 600 30 true ⟨true, 30, 500, false⟩ rfl).2,
   (c10_setrates_return 600 30 false ⟨true, 30, 500, false⟩ rfl).1⟩

end WebrtcGonkH264
